import Mathlib

set_option maxHeartbeats 1000000

deriving instance DecidableEq for Except

namespace HALsp

/-! Shallow embedding of the two core components of the homeassistant-lsp
repository: the TTL cache (src/cache.ts) and the Home Assistant WebSocket
client (src/ha-client.ts).

Cache values: the TypeScript cache stores arbitrary values and the read
path returns either the stored value or the JavaScript null. A stored
value is modelled as Option V, where none models a stored null; the read
result of type Option V therefore conflates a stored null with a miss,
exactly as the TypeScript code does (get returns T or null).

Time is modelled as a Nat of milliseconds; every operation that reads
Date.now() takes the current time as an explicit argument. TTL arguments
are in seconds, as in the source, and an omitted TTL argument (undefined
in TypeScript) is modelled as none. -/

/-- Cache entry, from the CacheEntry interface of src/cache.ts: value,
absolute expiry timestamp in milliseconds, and the key itself. -/
structure CacheEntry (V : Type) where
  value : Option V
  expiresAt : Nat
  key : String
deriving DecidableEq, Repr

/-- State of a Cache instance: the underlying insertion-ordered Map is
modelled as an association list (JavaScript Map iteration follows
insertion order, and overwriting an existing key keeps its position), plus
the configuration fields and the stats counters of src/cache.ts. -/
structure Cache (V : Type) where
  entries : List (String × CacheEntry V)
  defaultTTL : Nat
  maxSize : Nat
  hits : Nat
  misses : Nat
  evictions : Nat
  sizeStat : Nat
deriving DecidableEq, Repr

/-- Lookup in the association list modelling Map.get: first entry with the
given key. -/
def lookupEntry {V : Type} : List (String × CacheEntry V) → String → Option (CacheEntry V)
  | [], _ => none
  | (k2, e) :: rest, k => if k2 = k then some e else lookupEntry rest k

/-- Map.delete: remove the entry with the given key (at most one exists in
a Map; the model removes the first occurrence). -/
def eraseKey {V : Type} : List (String × CacheEntry V) → String → List (String × CacheEntry V)
  | [], _ => []
  | (k2, e) :: rest, k => if k2 = k then rest else (k2, e) :: eraseKey rest k

/-- Map.set: overwrite in place if the key exists, otherwise append. -/
def setEntry {V : Type} : List (String × CacheEntry V) → String → CacheEntry V → List (String × CacheEntry V)
  | [], k, e => [(k, e)]
  | (k2, e2) :: rest, k, e => if k2 = k then (k, e) :: rest else (k2, e2) :: setEntry rest k e

/-- JavaScript defaulting with the logical-or operator used by the Cache
constructor: options.x or default, where 0 is falsy and picks the
default. -/
def jsOrDefault (v : Option Nat) (d : Nat) : Nat :=
  match v with
  | some n => if n = 0 then d else n
  | none => d

/-- Constructor of src/cache.ts: defaultTTL defaults to 300 seconds,
maxSize to 1000, all counters start at zero (the cleanup timer machinery
is modelled separately by Cache.cleanup). -/
def Cache.init (V : Type) (defaultTTL maxSize : Option Nat) : Cache V :=
  { entries := []
    defaultTTL := jsOrDefault defaultTTL 300
    maxSize := jsOrDefault maxSize 1000
    hits := 0
    misses := 0
    evictions := 0
    sizeStat := 0 }

/-- Cache.get of src/cache.ts, lines 73-97: a missing key counts a miss;
a present entry with Date.now() strictly greater than expiresAt is deleted
and counts a miss; otherwise the stored value is returned and a hit is
counted. The returned Option V is the JavaScript return value T or null:
none is null. -/
def Cache.get {V : Type} (c : Cache V) (now : Nat) (key : String) : Option V × Cache V :=
  match lookupEntry c.entries key with
  | none => (none, { c with misses := c.misses + 1 })
  | some entry =>
    if entry.expiresAt < now then
      let entries := eraseKey c.entries key
      (none, { c with entries := entries, misses := c.misses + 1, sizeStat := entries.length })
    else
      (entry.value, { c with hits := c.hits + 1 })

/-- Accumulator loop of Cache.evictOldest, lines 258-267: oldestTime
starts at Infinity (modelled by the none accumulator, which every real
expiry beats) and an entry replaces the accumulator only when its
expiresAt is strictly smaller, so the first minimal entry in iteration
order wins ties. -/
def findOldestAux {V : Type} : Option (String × Nat) → List (String × CacheEntry V) → Option (String × Nat)
  | acc, [] => acc
  | acc, (k, e) :: rest =>
    match acc with
    | none => findOldestAux (some (k, e.expiresAt)) rest
    | some (k0, t0) =>
      if e.expiresAt < t0 then findOldestAux (some (k, e.expiresAt)) rest
      else findOldestAux (some (k0, t0)) rest

/-- Result of the scan of Cache.evictOldest over the whole store. -/
def findOldest {V : Type} (l : List (String × CacheEntry V)) : Option (String × Nat) :=
  findOldestAux none l

/-- Cache.evictOldest of src/cache.ts, lines 258-276. The final guard is
the JavaScript truthiness test if (oldestKey), which is false both for
null (empty store) and for the empty string, so an entry whose key is the
empty string is never actually deleted even when selected. -/
def Cache.evictOldest {V : Type} (c : Cache V) : Cache V :=
  match findOldest c.entries with
  | none => c
  | some (k, _) =>
    if k = "" then c
    else
      let entries := eraseKey c.entries k
      { c with entries := entries, evictions := c.evictions + 1, sizeStat := entries.length }

/-- Cache.set of src/cache.ts, lines 102-120: when the store is at or
above maxSize and the key is absent, evictOldest runs first; then the
entry is written with expiresAt = now + ttlSeconds * 1000, where
ttlSeconds is the explicit ttl when given (an explicit 0 is kept, the
source tests ttl against undefined) and defaultTTL otherwise. -/
def Cache.set {V : Type} (c : Cache V) (now : Nat) (key : String) (value : Option V) (ttl : Option Nat) : Cache V :=
  let c1 := if c.maxSize ≤ c.entries.length ∧ (lookupEntry c.entries key).isNone = true then c.evictOldest else c
  let ttlSeconds := ttl.getD c1.defaultTTL
  let entries := setEntry c1.entries key ⟨value, now + ttlSeconds * 1000, key⟩
  { c1 with entries := entries, sizeStat := entries.length }

/-- Cache.has of src/cache.ts, lines 125-136: like get but returns a
boolean and touches no hit or miss counter; it also deletes an expired
entry. -/
def Cache.has {V : Type} (c : Cache V) (now : Nat) (key : String) : Bool × Cache V :=
  match lookupEntry c.entries key with
  | none => (false, c)
  | some entry =>
    if entry.expiresAt < now then
      let entries := eraseKey c.entries key
      (false, { c with entries := entries, sizeStat := entries.length })
    else (true, c)

/-- Cache.touch of src/cache.ts, lines 244-253: looks the entry up with
plain Map.get, with no expiry check, and when present rewrites expiresAt
to now + ttlSeconds * 1000 in place and returns true. -/
def Cache.touch {V : Type} (c : Cache V) (now : Nat) (key : String) (ttl : Option Nat) : Bool × Cache V :=
  match lookupEntry c.entries key with
  | none => (false, c)
  | some entry =>
    let ttlSeconds := ttl.getD c.defaultTTL
    let entries := setEntry c.entries key { entry with expiresAt := now + ttlSeconds * 1000 }
    (true, { c with entries := entries })

/-- Cache.getOrFetch of src/cache.ts, lines 180-200. The supplier is
modelled by its outcome, an Except over the value (the value itself being
Option V, since a JavaScript supplier may resolve to null). The returned
Bool records whether the supplier was invoked: it is invoked exactly when
the initial read produced null. On success the value is stored with set;
on failure the error is rethrown and nothing is stored. -/
def Cache.getOrFetch {V E : Type} (c : Cache V) (now : Nat) (key : String)
    (fetchResult : Except E (Option V)) (ttl : Option Nat) :
    Except E (Option V) × Cache V × Bool :=
  match c.get now key with
  | (some v, c1) => (Except.ok (some v), c1, false)
  | (none, c1) =>
    match fetchResult with
    | Except.ok value => (Except.ok value, c1.set now key value ttl, true)
    | Except.error e => (Except.error e, c1, true)

/-- Cache.cleanup of src/cache.ts, lines 281-297: the periodic sweep
deletes every entry whose expiresAt is strictly in the past. -/
def Cache.cleanup {V : Type} (c : Cache V) (now : Nat) : Cache V :=
  let entries := c.entries.filter (fun p => !(p.2.expiresAt < now))
  { c with entries := entries, sizeStat := entries.length }

/-! Embedding of the HomeAssistantClient of src/ha-client.ts as an event
step machine. An event is either a public API call (connect, disconnect,
a request through sendRequest, such as getStates), a WebSocket library
callback (open, close), or an inbound protocol message dispatched by
handleMessage (auth_required, auth_ok, auth_invalid). The step function
returns the updated client state and the list of externally observable
actions: frames actually transmitted on the socket, promise rejections
and resolutions, and the reconnecting / max-attempts notifications.
Pending requests are modelled by their integer ids; subscriptions and
the result-correlation path are not needed by any claim and are left
out. Event-emitter state notifications with no state effect are also
not tracked as actions. -/

/-- ConnectionState enum of src/ha-client.ts, lines 19-25. -/
inductive ConnectionState
  | DISCONNECTED
  | CONNECTING
  | AUTHENTICATING
  | CONNECTED
  | ERROR
deriving DecidableEq, Repr

/-- ReadyState of the underlying ws socket object. -/
inductive WsReadyState
  | CONNECTING
  | OPEN
  | CLOSING
  | CLOSED
deriving DecidableEq, Repr

/-- Rejection reasons used by src/ha-client.ts: the throw of sendMessage
(WebSocket is not connected), the close-time rejection (Connection
closed) and the per-request timer (Request timeout). -/
inductive ReqError
  | wsNotConnected
  | connClosed
  | reqTimeout
deriving DecidableEq, Repr

/-- Kinds of frames the modelled paths transmit. -/
inductive FrameKind
  | authFrame
  | requestFrame
deriving DecidableEq, Repr

/-- Externally observable actions of one step of the client. -/
inductive Act
  | sentFrame (kind : FrameKind) (id : Option Nat)
  | rejectedRequest (id : Nat) (reason : ReqError)
  | emittedReconnecting (attempt : Nat) (delayMs : Nat)
  | emittedMaxReconnect
  | connectRetry
  | connectResolved
  | connectRejected
  | emittedError
deriving DecidableEq, Repr

/-- Client state: the ws field is none when this.ws is null, otherwise it
carries the readyState of the socket object. connectPending models the
pair of once-listeners (authenticated / auth_failed) registered by a
connect call that has not settled yet; reconnectScheduled models an armed
reconnect setTimeout. -/
structure Client where
  ws : Option WsReadyState
  state : ConnectionState
  messageId : Nat
  pendingRequests : List Nat
  reconnectAttempts : Nat
  reconnectScheduled : Bool
  connectPending : Bool
deriving DecidableEq, Repr

/-- Field initializers of src/ha-client.ts, lines 49-59. -/
def initialClient : Client :=
  { ws := none
    state := ConnectionState.DISCONNECTED
    messageId := 1
    pendingRequests := []
    reconnectAttempts := 0
    reconnectScheduled := false
    connectPending := false }

/-- Constant maxReconnectAttempts of line 56. -/
def maxReconnectAttempts : Nat := 10

/-- Constant reconnectDelay of line 57, in milliseconds. -/
def baseReconnectDelayMs : Nat := 1000

/-- Delay computed by handleClose for a given attempt number, lines
301-304: min of reconnectDelay times 2 to the (attempt - 1) and 30000
milliseconds. -/
def reconnectDelayForAttempt (attempt : Nat) : Nat :=
  min (baseReconnectDelayMs * 2 ^ (attempt - 1)) 30000

/-- Events driving the client: API calls, socket callbacks and inbound
authentication messages. -/
inductive Ev
  | connectCall
  | wsOpenEvent
  | msgAuthRequired
  | msgAuthOk
  | msgAuthInvalid
  | sendRequestCall
  | wsCloseEvent
  | reconnectTimerFire
  | disconnectCall
deriving DecidableEq, Repr

/-- Map.set on the pending-request map keyed by the id: a Map never holds
a duplicate key. -/
def insertId (l : List Nat) (id : Nat) : List Nat :=
  if id ∈ l then l else l ++ [id]

/-- Map.delete on the pending-request map. -/
def eraseId (l : List Nat) (id : Nat) : List Nat :=
  l.filter (fun j => j ≠ id)

/-- sendMessage of src/ha-client.ts, lines 323-329: throws unless this.ws
is non-null and its readyState is OPEN; otherwise the frame goes out. -/
def sendMessage (ws : Option WsReadyState) : Except ReqError Unit :=
  match ws with
  | some WsReadyState.OPEN => Except.ok ()
  | _ => Except.error ReqError.wsNotConnected

/-- handleClose of src/ha-client.ts, lines 287-318: state becomes
DISCONNECTED, every pending request is rejected with the connection
closed error and removed, and then either a reconnect is scheduled with
the exponential-backoff delay (when reconnectAttempts is below the
maximum, incrementing it) or the max-attempts event is emitted. The ws
field is not nulled here; the socket object, when still referenced, is
now CLOSED. -/
def handleCloseStep (c : Client) : Client × List Act :=
  let ws1 : Option WsReadyState :=
    match c.ws with
    | some _ => some WsReadyState.CLOSED
    | none => none
  let rejections := c.pendingRequests.map (fun id => Act.rejectedRequest id ReqError.connClosed)
  let c1 := { c with ws := ws1, state := ConnectionState.DISCONNECTED, pendingRequests := [] }
  if c.reconnectAttempts < maxReconnectAttempts then
    let attempt := c.reconnectAttempts + 1
    let delay := min (baseReconnectDelayMs * 2 ^ (attempt - 1)) 30000
    ({ c1 with reconnectAttempts := attempt, reconnectScheduled := true },
      rejections ++ [Act.emittedReconnecting attempt delay])
  else
    (c1, rejections ++ [Act.emittedMaxReconnect])

/-- One step of the client. Per event, following src/ha-client.ts:
connectCall is lines 64-71 (state CONNECTING, fresh socket, settle
listeners armed); wsOpenEvent is the open callback (socket becomes OPEN);
msgAuthRequired is lines 232-240 of handleMessage (state AUTHENTICATING,
auth frame sent through sendMessage, a throw being caught by the
surrounding try as an emitted error); msgAuthOk is lines 242-245 plus the
once-listener of lines 92-97 (state CONNECTED, attempts reset, connect
resolved); msgAuthInvalid is lines 247-250 plus the once-listener of
lines 99-102; sendRequestCall is sendRequest, lines 334-352 (fresh id,
entry recorded in the pending map before transmission, and on a
sendMessage throw the entry is removed again and the promise rejected);
wsCloseEvent is handleClose; reconnectTimerFire is the setTimeout body of
lines 308-314 (reconnect only when state is still DISCONNECTED);
disconnectCall is disconnect, lines 113-122 (socket closed and nulled,
state DISCONNECTED, pending and subscription maps cleared with no
rejection). -/
def step (c : Client) (e : Ev) : Client × List Act :=
  match e with
  | Ev.connectCall =>
    ({ c with
        state := ConnectionState.CONNECTING
        ws := some WsReadyState.CONNECTING
        connectPending := true }, [])
  | Ev.wsOpenEvent =>
    match c.ws with
    | some _ => ({ c with ws := some WsReadyState.OPEN }, [])
    | none => (c, [])
  | Ev.msgAuthRequired =>
    let c1 := { c with state := ConnectionState.AUTHENTICATING }
    match sendMessage c1.ws with
    | Except.ok _ => (c1, [Act.sentFrame FrameKind.authFrame none])
    | Except.error _ => (c1, [Act.emittedError])
  | Ev.msgAuthOk =>
    if c.connectPending then
      ({ c with
          state := ConnectionState.CONNECTED
          reconnectAttempts := 0
          connectPending := false }, [Act.connectResolved])
    else (c, [])
  | Ev.msgAuthInvalid =>
    if c.connectPending then
      ({ c with state := ConnectionState.ERROR, connectPending := false }, [Act.connectRejected])
    else (c, [])
  | Ev.sendRequestCall =>
    let id := c.messageId
    let c1 := { c with
        messageId := c.messageId + 1
        pendingRequests := insertId c.pendingRequests id }
    match sendMessage c1.ws with
    | Except.ok _ => (c1, [Act.sentFrame FrameKind.requestFrame (some id)])
    | Except.error err =>
      ({ c1 with pendingRequests := eraseId c1.pendingRequests id },
        [Act.rejectedRequest id err])
  | Ev.wsCloseEvent => handleCloseStep c
  | Ev.reconnectTimerFire =>
    if c.reconnectScheduled then
      let c1 := { c with reconnectScheduled := false }
      if c1.state = ConnectionState.DISCONNECTED then
        ({ c1 with
            state := ConnectionState.CONNECTING
            ws := some WsReadyState.CONNECTING
            connectPending := true }, [Act.connectRetry])
      else (c1, [])
    else (c, [])
  | Ev.disconnectCall =>
    ({ c with ws := none, state := ConnectionState.DISCONNECTED, pendingRequests := [] }, [])

/-- Run of a sequence of events from a client state, accumulating the
observable actions in order. -/
def run (c : Client) : List Ev → Client × List Act
  | [] => (c, [])
  | e :: es =>
    let s1 := step c e
    let s2 := run s1.1 es
    (s2.1, s1.2 ++ s2.2)

/-- Character-level test that the first list is a leading segment of the
second, the semantics of the startsWith method on JavaScript strings. -/
def charsStartWith : List Char → List Char → Bool
  | [], _ => true
  | _ :: _, [] => false
  | p :: ps, c :: cs => p = c && charsStartWith ps cs

/-- URL scheme check of ConfigManager.validate, src/src/utils/logger.ts
lines 345-353: a Home Assistant host URL is accepted only when it starts
with the insecure or the secure websocket scheme. The startsWith calls of
the source are modelled on the code-point list of the string. -/
def schemeValidWs (url : String) : Bool :=
  charsStartWith ("ws://").data url.data || charsStartWith ("wss://").data url.data

/-- Way in which a pending connect promise can settle, from the listeners
wired in connect, src/ha-client.ts lines 69-107: the authenticated event,
the auth_failed event, or a transport error event. -/
inductive ConnectSettle
  | authOk
  | authInvalid
  | wsError
deriving DecidableEq, Repr

/-- Failure cases of a connect call. -/
inductive ConnectErr
  | invalidUrl
  | authRejected
  | transportFailed
deriving DecidableEq, Repr

/-- Outcome of the promise returned by connect, src/ha-client.ts lines
64-108, as a function of the url and of how the attempt settles; none
means the promise is still pending. The constructor of the external ws
library is not part of this repository; its relevant behavior is
Modelled from the spec: new WebSocket(url) throws for a url whose scheme
is neither the insecure nor the secure websocket scheme (the same test
that ConfigManager.validate performs, schemeValidWs), and the throw is
caught on line 103 and rejects the promise. With a valid scheme the
first settling event decides: auth_ok resolves, auth_invalid rejects
with an authentication error, a transport error event rejects. -/
def connectOutcome (url : String) (settle : Option ConnectSettle) : Option (Except ConnectErr Unit) :=
  if schemeValidWs url then
    match settle with
    | none => none
    | some ConnectSettle.authOk => some (Except.ok ())
    | some ConnectSettle.authInvalid => some (Except.error ConnectErr.authRejected)
    | some ConnectSettle.wsError => some (Except.error ConnectErr.transportFailed)
  else some (Except.error ConnectErr.invalidUrl)

/-- Event trace for claim C1: a successful connect and authentication,
then an explicit disconnect call; the close event of the discarded socket
then fires handleClose, and the reconnect timer armed there later fires
while the state is still DISCONNECTED. -/
def c1Trace : List Ev :=
  [Ev.connectCall, Ev.wsOpenEvent, Ev.msgAuthRequired, Ev.msgAuthOk,
    Ev.disconnectCall, Ev.wsCloseEvent, Ev.reconnectTimerFire]

/-- Event trace reaching the AUTHENTICATING state with an OPEN socket:
connect was called, the socket opened, and the server sent the initial
auth_required frame. -/
def c2Pre : List Ev := [Ev.connectCall, Ev.wsOpenEvent, Ev.msgAuthRequired]

/-- Test whether an action is a pending-request rejection. -/
def isRejection : Act → Bool
  | Act.rejectedRequest _ _ => true
  | _ => false

/-- Client whose reconnect attempts are exhausted. -/
def cMaxed : Client := { initialClient with reconnectAttempts := 10 }

/-- Client with a pending connect promise awaiting authentication. -/
def cAwaitingAuth : Client :=
  { initialClient with
      ws := some WsReadyState.OPEN
      state := ConnectionState.AUTHENTICATING
      connectPending := true }

/-- Cache of maximum size one whose single entry has the empty string as
its key, built through the public constructor and set. -/
def c3Bad : Cache Nat :=
  (Cache.init Nat (some 300) (some 1)).set 0 ("") (some 7) (some 1)

/-- Cache of maximum size two, at capacity, with distinct non-empty
keys; the entry keyed b expires first. -/
def c3Full : Cache Nat :=
  ((Cache.init Nat (some 300) (some 2)).set 0 ("a") (some 1) (some 5)).set 0 ("b")
    (some 2) (some 3)

/-- Empty cache for the C4 counterexample. -/
def c4Cache : Cache Nat := Cache.init Nat (some 300) (some 1000)

/-- First getOrFetch on the C4 counterexample: the supplier resolves to
the JavaScript null. -/
def c4First : Except Nat (Option Nat) × Cache Nat × Bool :=
  c4Cache.getOrFetch 0 ("k") (Except.ok none) (some 60)

/-- Second getOrFetch on the same key, well before the 60 second TTL of
the entry written by the first call expires. -/
def c4Second : Except Nat (Option Nat) × Cache Nat × Bool :=
  c4First.2.1.getOrFetch 1 ("k") (Except.ok none) (some 60)

/-- Empty cache for the C4 witness. -/
def c4W : Cache Nat := Cache.init Nat (some 300) (some 1000)

/-- Cache holding one entry that expires at 1000 milliseconds. -/
def c5Cache : Cache Nat := (Cache.init Nat (some 300) (some 10)).set 0 ("x") (some 3) (some 1)

/-- Cache whose single entry stores the JavaScript null and is live until
100000 milliseconds. -/
def c8Cache : Cache Nat := (Cache.init Nat (some 300) (some 10)).set 0 ("k") none (some 100)

/-- Failed fetch on the C8 counterexample cache. -/
def c8Run : Except Nat (Option Nat) × Cache Nat × Bool :=
  c8Cache.getOrFetch 5 ("k") (Except.error 7) (some 100)

/-- Empty cache for the C8 witness. -/
def c8W : Cache Nat := Cache.init Nat (some 300) (some 10)

/-- Cache whose single entry expires at 2000 milliseconds. -/
def c10W : Cache Nat := (Cache.init Nat (some 300) (some 10)).set 0 ("y") (some 9) (some 2)

/-! Lemmas about the association-list operations backing the Map. -/

/-- Lookup misses exactly when no pair carries the key. -/
theorem lookupEntry_eq_none_iff {V : Type} (l : List (String × CacheEntry V)) (k : String) :
    lookupEntry l k = none ↔ ∀ p ∈ l, p.1 ≠ k := by
  induction l with
  | nil => simp [lookupEntry]
  | cons hd tl ih =>
    obtain ⟨k2, e⟩ := hd
    by_cases h : k2 = k
    · subst h; simp [lookupEntry]
    · simp [lookupEntry, h, ih]

/-- Lookup of a key right after setEntry on that key. -/
theorem lookupEntry_setEntry_self {V : Type} (l : List (String × CacheEntry V)) (k : String)
    (e : CacheEntry V) : lookupEntry (setEntry l k e) k = some e := by
  induction l with
  | nil => simp [setEntry, lookupEntry]
  | cons hd tl ih =>
    obtain ⟨k2, e2⟩ := hd
    by_cases h : k2 = k
    · simp [setEntry, h, lookupEntry]
    · simp [setEntry, h, lookupEntry, ih]

/-- setEntry on one key leaves lookups of other keys unchanged. -/
theorem lookupEntry_setEntry_ne {V : Type} (l : List (String × CacheEntry V)) (k k2 : String)
    (e : CacheEntry V) (h : k2 ≠ k) :
    lookupEntry (setEntry l k e) k2 = lookupEntry l k2 := by
  induction l with
  | nil =>
    have hne : k ≠ k2 := fun hh => h hh.symm
    simp [setEntry, lookupEntry, hne]
  | cons hd tl ih =>
    obtain ⟨k3, e3⟩ := hd
    by_cases h3 : k3 = k
    · subst h3
      have hne : k3 ≠ k2 := fun hh => h hh.symm
      simp [setEntry, lookupEntry, hne]
    · simp only [setEntry, if_neg h3, lookupEntry]
      by_cases h32 : k3 = k2
      · simp [h32]
      · simp [h32, ih]

/-- eraseKey on one key leaves lookups of other keys unchanged. -/
theorem lookupEntry_eraseKey_ne {V : Type} (l : List (String × CacheEntry V)) (k k2 : String)
    (h : k2 ≠ k) : lookupEntry (eraseKey l k) k2 = lookupEntry l k2 := by
  induction l with
  | nil => simp [eraseKey]
  | cons hd tl ih =>
    obtain ⟨k3, e3⟩ := hd
    by_cases h3 : k3 = k
    · subst h3
      have hne : k3 ≠ k2 := fun hh => h hh.symm
      simp [eraseKey, lookupEntry, hne]
    · simp only [eraseKey, if_neg h3, lookupEntry]
      by_cases h32 : k3 = k2
      · simp [h32]
      · simp [h32, ih]

/-- Every element surviving eraseKey was in the original list. -/
theorem mem_of_mem_eraseKey {V : Type} (l : List (String × CacheEntry V)) (k : String)
    (p : String × CacheEntry V) (h : p ∈ eraseKey l k) : p ∈ l := by
  induction l with
  | nil => simp [eraseKey] at h
  | cons hd tl ih =>
    obtain ⟨k3, e3⟩ := hd
    by_cases h3 : k3 = k
    · simp only [eraseKey, if_pos h3] at h
      exact List.mem_cons_of_mem _ h
    · simp only [eraseKey, if_neg h3, List.mem_cons] at h
      rcases h with h | h
      · exact List.mem_cons.mpr (Or.inl h)
      · exact List.mem_cons_of_mem _ (ih h)

/-- A key absent before eraseKey is absent after it. -/
theorem lookupEntry_eraseKey_of_none {V : Type} (l : List (String × CacheEntry V)) (k k0 : String)
    (h : lookupEntry l k = none) : lookupEntry (eraseKey l k0) k = none := by
  rw [lookupEntry_eq_none_iff] at h ⊢
  intro p hp
  exact h p (mem_of_mem_eraseKey l k0 p hp)

/-- With pairwise distinct keys, erasing a key removes it from lookup. -/
theorem lookupEntry_eraseKey_self {V : Type} (l : List (String × CacheEntry V)) (k : String)
    (hnd : (l.map Prod.fst).Nodup) : lookupEntry (eraseKey l k) k = none := by
  induction l with
  | nil => simp [eraseKey, lookupEntry]
  | cons hd tl ih =>
    obtain ⟨k3, e3⟩ := hd
    simp only [List.map_cons, List.nodup_cons] at hnd
    by_cases h3 : k3 = k
    · subst h3
      rw [eraseKey, if_pos rfl, lookupEntry_eq_none_iff]
      intro p hp hpk
      exact hnd.1 (hpk ▸ List.mem_map_of_mem Prod.fst hp)
    · rw [eraseKey, if_neg h3, lookupEntry, if_neg h3]
      exact ih hnd.2

/-- With pairwise distinct keys, a member pair is what lookup returns. -/
theorem lookupEntry_of_mem_nodup {V : Type} (l : List (String × CacheEntry V)) (k : String)
    (e : CacheEntry V) (hm : (k, e) ∈ l) (hnd : (l.map Prod.fst).Nodup) :
    lookupEntry l k = some e := by
  induction l with
  | nil => cases hm
  | cons hd tl ih =>
    obtain ⟨k3, e3⟩ := hd
    simp only [List.map_cons, List.nodup_cons] at hnd
    rcases List.mem_cons.mp hm with h | h
    · obtain ⟨hk, he⟩ := Prod.mk.injEq .. ▸ h
      subst hk; subst he
      simp [lookupEntry]
    · have hk3 : k3 ≠ k := by
        intro hh
        subst hh
        exact hnd.1 (List.mem_map_of_mem Prod.fst h)
      rw [lookupEntry, if_neg hk3]
      exact ih h hnd.2

/-- Erasing a present key shortens the list by exactly one. -/
theorem length_eraseKey_of_mem {V : Type} (l : List (String × CacheEntry V)) (k : String)
    (e : CacheEntry V) (h : lookupEntry l k = some e) :
    (eraseKey l k).length + 1 = l.length := by
  induction l with
  | nil => simp [lookupEntry] at h
  | cons hd tl ih =>
    obtain ⟨k3, e3⟩ := hd
    by_cases h3 : k3 = k
    · simp [eraseKey, h3]
    · rw [lookupEntry, if_neg h3] at h
      simp only [eraseKey, if_neg h3, List.length_cons]
      rw [← ih h]

/-- eraseKey never lengthens the list. -/
theorem length_eraseKey_le {V : Type} (l : List (String × CacheEntry V)) (k : String) :
    (eraseKey l k).length ≤ l.length := by
  induction l with
  | nil => simp [eraseKey]
  | cons hd tl ih =>
    obtain ⟨k3, e3⟩ := hd
    by_cases h3 : k3 = k
    · simp [eraseKey, h3]
    · simp only [eraseKey, if_neg h3, List.length_cons]
      omega

/-- setEntry of an absent key appends: length grows by one. -/
theorem length_setEntry_of_none {V : Type} (l : List (String × CacheEntry V)) (k : String)
    (e : CacheEntry V) (h : lookupEntry l k = none) :
    (setEntry l k e).length = l.length + 1 := by
  induction l with
  | nil => simp [setEntry]
  | cons hd tl ih =>
    obtain ⟨k3, e3⟩ := hd
    by_cases h3 : k3 = k
    · rw [lookupEntry, if_pos h3] at h; cases h
    · rw [lookupEntry, if_neg h3] at h
      simp only [setEntry, if_neg h3, List.length_cons, ih h]

/-- setEntry of a present key overwrites in place: length is unchanged. -/
theorem length_setEntry_of_some {V : Type} (l : List (String × CacheEntry V)) (k : String)
    (e e0 : CacheEntry V) (h : lookupEntry l k = some e0) :
    (setEntry l k e).length = l.length := by
  induction l with
  | nil => simp [lookupEntry] at h
  | cons hd tl ih =>
    obtain ⟨k3, e3⟩ := hd
    by_cases h3 : k3 = k
    · simp [setEntry, h3]
    · rw [lookupEntry, if_neg h3] at h
      simp only [setEntry, if_neg h3, List.length_cons, ih h]

/-! Lemmas about the evictOldest scan. -/

/-- The scan only ever lowers the tracked minimum. -/
theorem findOldestAux_le_acc {V : Type} (l : List (String × CacheEntry V)) :
    ∀ (k0 : String) (t0 : Nat) (k : String) (t : Nat),
      findOldestAux (some (k0, t0)) l = some (k, t) → t ≤ t0 := by
  induction l with
  | nil =>
    intro k0 t0 k t h
    simp only [findOldestAux, Option.some.injEq, Prod.mk.injEq] at h
    omega
  | cons hd tl ih =>
    intro k0 t0 k t h
    obtain ⟨k1, e1⟩ := hd
    simp only [findOldestAux] at h
    by_cases hlt : e1.expiresAt < t0
    · rw [if_pos hlt] at h
      have := ih k1 e1.expiresAt k t h
      omega
    · rw [if_neg hlt] at h
      exact ih k0 t0 k t h

/-- The expiry the scan returns is a lower bound for every scanned
entry. -/
theorem findOldestAux_min {V : Type} (l : List (String × CacheEntry V)) :
    ∀ (acc : Option (String × Nat)) (k : String) (t : Nat),
      findOldestAux acc l = some (k, t) → ∀ p ∈ l, t ≤ p.2.expiresAt := by
  induction l with
  | nil => intro acc k t _ p hp; cases hp
  | cons hd tl ih =>
    intro acc k t h p hp
    obtain ⟨k1, e1⟩ := hd
    rcases List.mem_cons.mp hp with hph | hpt
    · subst hph
      match acc with
      | none =>
        simp only [findOldestAux] at h
        exact findOldestAux_le_acc tl k1 e1.expiresAt k t h
      | some (k0, t0) =>
        simp only [findOldestAux] at h
        by_cases hlt : e1.expiresAt < t0
        · rw [if_pos hlt] at h
          exact findOldestAux_le_acc tl k1 e1.expiresAt k t h
        · rw [if_neg hlt] at h
          have := findOldestAux_le_acc tl k0 t0 k t h
          simp only [not_lt] at hlt
          show t ≤ e1.expiresAt
          omega
    · match acc with
      | none =>
        simp only [findOldestAux] at h
        exact ih _ k t h p hpt
      | some (k0, t0) =>
        simp only [findOldestAux] at h
        by_cases hlt : e1.expiresAt < t0
        · rw [if_pos hlt] at h
          exact ih _ k t h p hpt
        · rw [if_neg hlt] at h
          exact ih _ k t h p hpt

/-- The scan result is the accumulator or an actual entry of the list. -/
theorem findOldestAux_mem {V : Type} (l : List (String × CacheEntry V)) :
    ∀ (acc : Option (String × Nat)) (k : String) (t : Nat),
      findOldestAux acc l = some (k, t) →
      acc = some (k, t) ∨ ∃ e, (k, e) ∈ l ∧ e.expiresAt = t := by
  induction l with
  | nil => intro acc k t h; exact Or.inl h
  | cons hd tl ih =>
    intro acc k t h
    obtain ⟨k1, e1⟩ := hd
    have liftTail : (∃ e, (k, e) ∈ tl ∧ e.expiresAt = t) →
        ∃ e, (k, e) ∈ (k1, e1) :: tl ∧ e.expiresAt = t := by
      rintro ⟨e, he, het⟩
      exact ⟨e, List.mem_cons_of_mem _ he, het⟩
    have fromNew : findOldestAux (some (k1, e1.expiresAt)) tl = some (k, t) →
        ∃ e, (k, e) ∈ (k1, e1) :: tl ∧ e.expiresAt = t := by
      intro hh
      rcases ih _ k t hh with hacc | htl
      · simp only [Option.some.injEq, Prod.mk.injEq] at hacc
        exact ⟨e1, by simp [hacc.1.symm], hacc.2⟩
      · exact liftTail htl
    match acc with
    | none =>
      simp only [findOldestAux] at h
      exact Or.inr (fromNew h)
    | some (k0, t0) =>
      simp only [findOldestAux] at h
      by_cases hlt : e1.expiresAt < t0
      · rw [if_pos hlt] at h
        exact Or.inr (fromNew h)
      · rw [if_neg hlt] at h
        rcases ih _ k t h with hacc | htl
        · exact Or.inl hacc
        · exact Or.inr (liftTail htl)

/-- The key findOldest selects belongs to the store and carries the
returned expiry. -/
theorem findOldest_mem {V : Type} (l : List (String × CacheEntry V)) (k : String) (t : Nat)
    (h : findOldest l = some (k, t)) : ∃ e, (k, e) ∈ l ∧ e.expiresAt = t := by
  rcases findOldestAux_mem l none k t h with h1 | h2
  · cases h1
  · exact h2

/-- The expiry findOldest returns is minimal over the whole store. -/
theorem findOldest_min {V : Type} (l : List (String × CacheEntry V)) (k : String) (t : Nat)
    (h : findOldest l = some (k, t)) : ∀ p ∈ l, t ≤ p.2.expiresAt :=
  findOldestAux_min l none k t h

/-! Claims about the connection manager. -/

/-- Claim C1: the claim states that after an explicit disconnect no
reconnection attempt is ever made and the manager stays DISCONNECTED.
The code violates this: disconnect leaves the close listener of the old
socket in place, handleClose schedules a reconnect on every close, and
the guard of the scheduled timer fires the reconnect precisely when the
state is DISCONNECTED, which is exactly the state an explicit disconnect
leaves behind. Evaluating the model on the trace: after the explicit
disconnect the state is DISCONNECTED, yet the full trace emits a
connectRetry action and ends in CONNECTING. -/
theorem c1_reconnect_after_explicit_disconnect :
    (run initialClient [Ev.connectCall, Ev.wsOpenEvent, Ev.msgAuthRequired, Ev.msgAuthOk,
        Ev.disconnectCall]).1.state = ConnectionState.DISCONNECTED ∧
    Act.connectRetry ∈ (run initialClient c1Trace).2 ∧
    (run initialClient c1Trace).1.state = ConnectionState.CONNECTING := by
  refine ⟨rfl, ?_, rfl⟩
  decide

/-- Claim C2, counterexample: the claim states that a request issued in
any state other than CONNECTED is immediately rejected and nothing is
transmitted. In the AUTHENTICATING state the socket is already OPEN, and
sendRequest guards only on the socket readyState, not on the connection
state enum: the request frame with id 1 is transmitted and the request
stays pending. -/
theorem c2_request_sent_while_authenticating :
    (run initialClient c2Pre).1.state = ConnectionState.AUTHENTICATING ∧
    (step (run initialClient c2Pre).1 Ev.sendRequestCall).2
      = [Act.sentFrame FrameKind.requestFrame (some 1)] ∧
    (step (run initialClient c2Pre).1 Ev.sendRequestCall).1.pendingRequests = [1] := by
  decide

/-- Removing a freshly inserted id from the pending map restores it. -/
theorem eraseId_insertId_of_not_mem (l : List Nat) (id : Nat) (h : id ∉ l) :
    eraseId (insertId l id) id = l := by
  simp only [insertId, if_neg h, eraseId, List.filter_append]
  have hself : ∀ a ∈ l, (decide (a ≠ id)) = true := by
    intro a ha
    simp only [decide_eq_true_eq]
    exact fun hh => h (hh ▸ ha)
  rw [List.filter_eq_self.mpr hself]
  simp

/-- Claim C2, amended: a request issued while the socket handle is null
or its readyState is not OPEN is rejected at once with the
websocket-not-connected error, nothing is transmitted, and the pending
map is left as before; the guard is the socket readyState, so this
covers DISCONNECTED and ERROR after a failed open, but not the
AUTHENTICATING state with an open socket. -/
theorem c2_request_rejected_when_socket_not_open (c : Client)
    (hws : c.ws ≠ some WsReadyState.OPEN) (hid : c.messageId ∉ c.pendingRequests) :
    (step c Ev.sendRequestCall).2
      = [Act.rejectedRequest c.messageId ReqError.wsNotConnected] ∧
    (step c Ev.sendRequestCall).1.pendingRequests = c.pendingRequests := by
  have he := eraseId_insertId_of_not_mem c.pendingRequests c.messageId hid
  cases hc : c.ws with
  | none => exact ⟨by simp [step, sendMessage, hc], by simp [step, sendMessage, hc, he]⟩
  | some r =>
    cases r with
    | OPEN => exact absurd hc hws
    | CONNECTING => exact ⟨by simp [step, sendMessage, hc], by simp [step, sendMessage, hc, he]⟩
    | CLOSING => exact ⟨by simp [step, sendMessage, hc], by simp [step, sendMessage, hc, he]⟩
    | CLOSED => exact ⟨by simp [step, sendMessage, hc], by simp [step, sendMessage, hc, he]⟩

/-- Witness for the amended claim C2 at the initial client, whose ws
field is null. -/
theorem c2_witness :
    initialClient.ws ≠ some WsReadyState.OPEN ∧
    (step initialClient Ev.sendRequestCall).2
      = [Act.rejectedRequest initialClient.messageId ReqError.wsNotConnected] ∧
    (step initialClient Ev.sendRequestCall).1.pendingRequests
      = initialClient.pendingRequests := by
  refine ⟨by decide, ?_, ?_⟩
  · exact (c2_request_rejected_when_socket_not_open initialClient (by decide) (by decide)).1
  · exact (c2_request_rejected_when_socket_not_open initialClient (by decide) (by decide)).2

/-- Claim C6: on a close event every pending request, whatever their
number, is rejected with the connection-closed error, in map order, and
the pending map is empty immediately afterwards. -/
theorem c6_close_rejects_all_pending (c : Client) :
    (step c Ev.wsCloseEvent).1.pendingRequests = [] ∧
    ((step c Ev.wsCloseEvent).2.filter isRejection)
      = c.pendingRequests.map (fun id => Act.rejectedRequest id ReqError.connClosed) := by
  have hmapfilter :
      (c.pendingRequests.map (fun id => Act.rejectedRequest id ReqError.connClosed)).filter
          isRejection
        = c.pendingRequests.map (fun id => Act.rejectedRequest id ReqError.connClosed) := by
    apply List.filter_eq_self.mpr
    intro a ha
    rcases List.mem_map.mp ha with ⟨id, _, rfl⟩
    rfl
  by_cases hr : c.reconnectAttempts < maxReconnectAttempts
  · refine ⟨by simp [step, handleCloseStep, hr], ?_⟩
    simp only [step, handleCloseStep, if_pos hr, List.filter_append, hmapfilter]
    simp [isRejection]
  · refine ⟨by simp [step, handleCloseStep, hr], ?_⟩
    simp only [step, handleCloseStep, if_neg hr, List.filter_append, hmapfilter]
    simp [isRejection]

/-- Claim C7: below the maximum attempt count, a close schedules a
reconnect for attempt n with delay min of 1000 times 2 to the (n - 1)
and 30000 milliseconds, which for attempts 1 to 5 is 1, 2, 4, 8, 16
seconds and from attempt 6 on is exactly 30 seconds; once the configured
maximum of 10 attempts is reached, a further close emits the
max-attempts event, schedules nothing, and leaves the counter alone. -/
theorem c7_reconnect_backoff :
    (∀ c : Client, c.reconnectAttempts < maxReconnectAttempts →
      (step c Ev.wsCloseEvent).2
        = c.pendingRequests.map (fun id => Act.rejectedRequest id ReqError.connClosed)
            ++ [Act.emittedReconnecting (c.reconnectAttempts + 1)
                  (reconnectDelayForAttempt (c.reconnectAttempts + 1))] ∧
      (step c Ev.wsCloseEvent).1.reconnectAttempts = c.reconnectAttempts + 1 ∧
      (step c Ev.wsCloseEvent).1.reconnectScheduled = true) ∧
    (reconnectDelayForAttempt 1 = 1000 ∧ reconnectDelayForAttempt 2 = 2000 ∧
      reconnectDelayForAttempt 3 = 4000 ∧ reconnectDelayForAttempt 4 = 8000 ∧
      reconnectDelayForAttempt 5 = 16000) ∧
    (∀ n : Nat, 6 ≤ n → reconnectDelayForAttempt n = 30000) ∧
    (∀ c : Client, maxReconnectAttempts ≤ c.reconnectAttempts →
      (step c Ev.wsCloseEvent).2
        = c.pendingRequests.map (fun id => Act.rejectedRequest id ReqError.connClosed)
            ++ [Act.emittedMaxReconnect] ∧
      (step c Ev.wsCloseEvent).1.reconnectAttempts = c.reconnectAttempts ∧
      (step c Ev.wsCloseEvent).1.reconnectScheduled = c.reconnectScheduled) := by
  refine ⟨?_, ⟨by decide, by decide, by decide, by decide, by decide⟩, ?_, ?_⟩
  · intro c h
    refine ⟨?_, ?_, ?_⟩ <;>
      simp [step, handleCloseStep, if_pos h, reconnectDelayForAttempt]
  · intro n hn
    have h32 : 32 ≤ 2 ^ (n - 1) := by
      have : (2 : Nat) ^ 5 ≤ 2 ^ (n - 1) := Nat.pow_le_pow_right (by norm_num) (by omega)
      simpa using this
    simp only [reconnectDelayForAttempt, baseReconnectDelayMs]
    omega
  · intro c h
    have h2 : ¬ c.reconnectAttempts < maxReconnectAttempts := by omega
    refine ⟨?_, ?_, ?_⟩ <;> simp [step, handleCloseStep, h2]

/-- Witness for claim C7: the backoff facts instantiated at attempt 7, at
the initial client, and at a client whose attempts are exhausted. -/
theorem c7_witness :
    reconnectDelayForAttempt 7 = 30000 ∧
    (step initialClient Ev.wsCloseEvent).1.reconnectAttempts
      = initialClient.reconnectAttempts + 1 ∧
    (step cMaxed Ev.wsCloseEvent).1.reconnectScheduled = cMaxed.reconnectScheduled :=
  ⟨c7_reconnect_backoff.2.2.1 7 (by norm_num),
    (c7_reconnect_backoff.1 initialClient (by decide)).2.1,
    (c7_reconnect_backoff.2.2.2 cMaxed (by decide)).2.2⟩

/-- Claim C9: connect fails when the URL scheme is neither the insecure
nor the secure websocket scheme, and it fails whenever the server rejects
authentication; the third conjunct grounds the rejection path in the
step machine, where the auth_invalid message rejects the pending connect
and moves the state to ERROR. -/
theorem c9_connect_failure_modes :
    (∀ (url : String) (settle : Option ConnectSettle), schemeValidWs url = false →
      connectOutcome url settle = some (Except.error ConnectErr.invalidUrl)) ∧
    (∀ url : String, ∃ e : ConnectErr,
      connectOutcome url (some ConnectSettle.authInvalid) = some (Except.error e)) ∧
    (∀ c : Client, c.connectPending = true →
      (step c Ev.msgAuthInvalid).1.state = ConnectionState.ERROR ∧
      (step c Ev.msgAuthInvalid).2 = [Act.connectRejected]) := by
  refine ⟨?_, ?_, ?_⟩
  · intro url settle h
    simp [connectOutcome, h]
  · intro url
    by_cases h : schemeValidWs url
    · exact ⟨ConnectErr.authRejected, by simp [connectOutcome, h]⟩
    · exact ⟨ConnectErr.invalidUrl, by simp [connectOutcome, h]⟩
  · intro c h
    exact ⟨by simp [step, h], by simp [step, h]⟩

/-- Witness for claim C9 at a plain http URL, at a valid websocket URL
whose authentication is rejected, and at a client awaiting
authentication. -/
theorem c9_witness :
    schemeValidWs ("http://homeassistant.local:8123") = false ∧
    connectOutcome ("http://homeassistant.local:8123") none
      = some (Except.error ConnectErr.invalidUrl) ∧
    (∃ e : ConnectErr, connectOutcome ("ws://homeassistant.local:8123")
      (some ConnectSettle.authInvalid) = some (Except.error e)) ∧
    (step cAwaitingAuth Ev.msgAuthInvalid).1.state = ConnectionState.ERROR := by
  refine ⟨by decide, ?_, ?_, ?_⟩
  · exact c9_connect_failure_modes.1 _ none (by decide)
  · exact c9_connect_failure_modes.2.1 _
  · exact (c9_connect_failure_modes.2.2 cAwaitingAuth (by decide)).1

/-! Branch lemmas for the cache operations. -/

/-- A get on an absent key only counts a miss. -/
theorem get_missing {V : Type} (c : Cache V) (now : Nat) (k : String)
    (hl : lookupEntry c.entries k = none) :
    c.get now k = (none, { c with misses := c.misses + 1 }) := by
  unfold Cache.get
  rw [hl]

/-- A get on an expired entry deletes it and counts a miss. -/
theorem get_expired {V : Type} (c : Cache V) (now : Nat) (k : String) (e : CacheEntry V)
    (hl : lookupEntry c.entries k = some e) (hv : e.expiresAt < now) :
    c.get now k = (none,
      { c with
          entries := eraseKey c.entries k
          misses := c.misses + 1
          sizeStat := (eraseKey c.entries k).length }) := by
  unfold Cache.get
  rw [hl]
  simp [hv]

/-- A get on a live entry returns its stored value and counts a hit. -/
theorem get_hit {V : Type} (c : Cache V) (now : Nat) (k : String) (e : CacheEntry V)
    (hl : lookupEntry c.entries k = some e) (hv : ¬ e.expiresAt < now) :
    c.get now k = (e.value, { c with hits := c.hits + 1 }) := by
  unfold Cache.get
  rw [hl]
  simp [hv]

/-- evictOldest never changes the configured default TTL. -/
theorem evictOldest_defaultTTL {V : Type} (c : Cache V) :
    c.evictOldest.defaultTTL = c.defaultTTL := by
  unfold Cache.evictOldest
  cases h : findOldest c.entries with
  | none => rfl
  | some p =>
    obtain ⟨k1, t1⟩ := p
    by_cases h1 : k1 = "" <;> simp [h1]

/-- A get never changes the configured default TTL. -/
theorem get_snd_defaultTTL {V : Type} (c : Cache V) (now : Nat) (k : String) :
    ((c.get now k).2).defaultTTL = c.defaultTTL := by
  unfold Cache.get
  cases h : lookupEntry c.entries k with
  | none => rfl
  | some e => by_cases hv : e.expiresAt < now <;> simp [hv]

/-- Immediately after a set, the key holds the freshly written entry. -/
theorem lookupEntry_set_self {V : Type} (c : Cache V) (now : Nat) (k : String)
    (v : Option V) (ttl : Option Nat) :
    lookupEntry (c.set now k v ttl).entries k
      = some ⟨v, now + (ttl.getD c.defaultTTL) * 1000, k⟩ := by
  unfold Cache.set
  by_cases hcond : c.maxSize ≤ c.entries.length ∧ (lookupEntry c.entries k).isNone = true
  · rw [if_pos hcond]
    simp [lookupEntry_setEntry_self, evictOldest_defaultTTL]
  · rw [if_neg hcond]
    simp [lookupEntry_setEntry_self]

/-! Claims about the cache. -/

/-- Claim C3, counterexample: with the store at its maximum size 1 and
holding only an entry keyed by the empty string, inserting the new key k
evicts nothing: the evictOldest scan selects the empty-string key, the
if (oldestKey) guard treats it as falsy, and the store grows to size 2
with the eviction counter still 0 and the minimal-expiry entry still
present, contradicting the claim that exactly one entry is removed and
the size stays at the maximum. -/
theorem c3_empty_key_defeats_eviction :
    c3Bad.entries.length = c3Bad.maxSize ∧
    c3Bad.maxSize = 1 ∧
    (c3Bad.set 0 ("k") (some 8) (some 1)).entries.length = 2 ∧
    (c3Bad.set 0 ("k") (some 8) (some 1)).evictions = 0 ∧
    lookupEntry (c3Bad.set 0 ("k") (some 8) (some 1)).entries ("")
      = some ⟨some 7, 1000, ""⟩ := by
  decide

/-- Claim C3, amended: when the store is at its maximum size and the key
is new, set removes exactly one entry, namely the one selected by the
evictOldest scan, whose expiresAt is minimal over the whole store,
PROVIDED the selected key is not the empty string; the new entry is
written afterwards and is never the eviction candidate, the size is back
at the maximum, the eviction counter grows by one, and every other entry
is untouched. A set on an already present key evicts nothing and
overwrites value and expiry in place. -/
theorem c3_eviction_policy {V : Type} (c : Cache V) (now : Nat) (k k0 : String)
    (v : Option V) (ttl : Option Nat) (t0 : Nat)
    (hnd : (c.entries.map Prod.fst).Nodup)
    (hfull : c.entries.length = c.maxSize)
    (hnew : lookupEntry c.entries k = none)
    (hsel : findOldest c.entries = some (k0, t0))
    (hk0 : k0 ≠ "") :
    (c.set now k v ttl).entries.length = c.maxSize ∧
    (c.set now k v ttl).evictions = c.evictions + 1 ∧
    lookupEntry (c.set now k v ttl).entries k
      = some ⟨v, now + (ttl.getD c.defaultTTL) * 1000, k⟩ ∧
    lookupEntry (c.set now k v ttl).entries k0 = none ∧
    (∃ e0, (k0, e0) ∈ c.entries ∧ e0.expiresAt = t0) ∧
    (∀ p ∈ c.entries, t0 ≤ p.2.expiresAt) ∧
    (∀ k2, k2 ≠ k → k2 ≠ k0 →
      lookupEntry (c.set now k v ttl).entries k2 = lookupEntry c.entries k2) ∧
    (∀ (c2 : Cache V) (k2 : String) (v2 : Option V) (t2 : Option Nat) (e2 : CacheEntry V),
      lookupEntry c2.entries k2 = some e2 →
      (c2.set now k2 v2 t2).evictions = c2.evictions ∧
      (c2.set now k2 v2 t2).entries.length = c2.entries.length ∧
      lookupEntry (c2.set now k2 v2 t2).entries k2
        = some ⟨v2, now + (t2.getD c2.defaultTTL) * 1000, k2⟩) := by
  obtain ⟨e0, he0mem, he0t⟩ := findOldest_mem c.entries k0 t0 hsel
  have he0look : lookupEntry c.entries k0 = some e0 :=
    lookupEntry_of_mem_nodup c.entries k0 e0 he0mem hnd
  have hkk0 : k0 ≠ k := by
    intro hh
    rw [hh, hnew] at he0look
    cases he0look
  have hcond : c.maxSize ≤ c.entries.length ∧ (lookupEntry c.entries k).isNone = true :=
    ⟨Nat.le_of_eq hfull.symm, by rw [hnew]; rfl⟩
  have hev : c.evictOldest =
      { c with
          entries := eraseKey c.entries k0
          evictions := c.evictions + 1
          sizeStat := (eraseKey c.entries k0).length } := by
    unfold Cache.evictOldest
    rw [hsel]
    simp [hk0]
  have hsetEq : c.set now k v ttl =
      { c with
          entries := setEntry (eraseKey c.entries k0) k
            ⟨v, now + (ttl.getD c.defaultTTL) * 1000, k⟩
          evictions := c.evictions + 1
          sizeStat := (setEntry (eraseKey c.entries k0) k
            ⟨v, now + (ttl.getD c.defaultTTL) * 1000, k⟩).length } := by
    unfold Cache.set
    rw [if_pos hcond, hev]
  have hkgone : lookupEntry (eraseKey c.entries k0) k = none :=
    lookupEntry_eraseKey_of_none c.entries k k0 hnew
  refine ⟨?_, ?_, ?_, ?_, ⟨e0, he0mem, he0t⟩, findOldest_min c.entries k0 t0 hsel, ?_, ?_⟩
  · rw [hsetEq]
    have h1 := length_setEntry_of_none (eraseKey c.entries k0) k
      ⟨v, now + (ttl.getD c.defaultTTL) * 1000, k⟩ hkgone
    have h2 := length_eraseKey_of_mem c.entries k0 e0 he0look
    simp only []
    omega
  · rw [hsetEq]
  · rw [hsetEq]
    exact lookupEntry_setEntry_self _ _ _
  · rw [hsetEq]
    have h1 := lookupEntry_setEntry_ne (eraseKey c.entries k0) k k0
      ⟨v, now + (ttl.getD c.defaultTTL) * 1000, k⟩ hkk0
    simp only []
    rw [h1]
    exact lookupEntry_eraseKey_self c.entries k0 hnd
  · intro k2 h2k h2k0
    rw [hsetEq]
    simp only []
    rw [lookupEntry_setEntry_ne _ _ _ _ h2k]
    exact lookupEntry_eraseKey_ne c.entries k0 k2 h2k0
  · intro c2 k2 v2 t2 e2 h2
    have hcond2 : ¬ (c2.maxSize ≤ c2.entries.length ∧
        (lookupEntry c2.entries k2).isNone = true) := by
      intro hcc
      rw [h2] at hcc
      cases hcc.2
    refine ⟨?_, ?_, ?_⟩
    · unfold Cache.set
      rw [if_neg hcond2]
    · unfold Cache.set
      rw [if_neg hcond2]
      exact length_setEntry_of_some c2.entries k2 _ e2 h2
    · exact lookupEntry_set_self c2 now k2 v2 t2

/-- Witness for the amended claim C3: inserting a third key into c3Full
evicts exactly the earliest-expiring entry b, keeps the size at the
maximum and bumps the eviction counter. -/
theorem c3_witness :
    (c3Full.set 10 ("c") (some 9) (some 60)).entries.length = c3Full.maxSize ∧
    (c3Full.set 10 ("c") (some 9) (some 60)).evictions = c3Full.evictions + 1 ∧
    lookupEntry (c3Full.set 10 ("c") (some 9) (some 60)).entries ("b") = none :=
  let H := c3_eviction_policy c3Full 10 ("c") ("b") (some 9) (some 60) 3000
    (by decide) (by decide) (by decide) (by decide) (by decide)
  ⟨H.1, H.2.1, H.2.2.2.1⟩

/-- Claim C4, counterexample: the claim says the supplier runs exactly
once regardless of the value it returned. When the supplier resolves to
null, the value is stored (the entry is live until 60000), but the read
path cannot distinguish a stored null from a miss, so the second call
invokes the supplier again: both calls carry the invoked flag. -/
theorem c4_null_value_refetches :
    c4First.2.2 = true ∧
    lookupEntry c4First.2.1.entries ("k") = some ⟨none, 60000, "k"⟩ ∧
    c4Second.2.2 = true := by
  decide

/-- Claim C4, amended: two getOrFetch calls in succession on one key
invoke the supplier exactly once PROVIDED the value the first supplier
returned is not null: the second call, and by the unchanged store every
later call before the entry expires, is served from the cache without
invoking its supplier. A null supplier value is cached but
indistinguishable from a miss on read, so it re-invokes the supplier
each call. -/
theorem c4_single_fetch_before_expiry {V E : Type} (c : Cache V) (now now2 : Nat)
    (k : String) (v : V) (ttl : Option Nat) (f2 : Except E (Option V))
    (h1 : (c.get now k).1 = none)
    (h2 : now2 ≤ now + (ttl.getD c.defaultTTL) * 1000) :
    (c.getOrFetch now k (Except.ok (some v) : Except E (Option V)) ttl).2.2 = true ∧
    (c.getOrFetch now k (Except.ok (some v) : Except E (Option V)) ttl).1
      = Except.ok (some v) ∧
    ((c.getOrFetch now k (Except.ok (some v) : Except E (Option V)) ttl).2.1.getOrFetch
      now2 k f2 ttl).2.2 = false ∧
    ((c.getOrFetch now k (Except.ok (some v) : Except E (Option V)) ttl).2.1.getOrFetch
      now2 k f2 ttl).1 = Except.ok (some v) ∧
    ((c.getOrFetch now k (Except.ok (some v) : Except E (Option V)) ttl).2.1.getOrFetch
        now2 k f2 ttl).2.1.entries
      = (c.getOrFetch now k (Except.ok (some v) : Except E (Option V)) ttl).2.1.entries := by
  have hfirst : c.getOrFetch now k (Except.ok (some v) : Except E (Option V)) ttl
      = (Except.ok (some v), ((c.get now k).2).set now k (some v) ttl, true) := by
    unfold Cache.getOrFetch
    rcases hget : c.get now k with ⟨r, c1⟩
    have hr : r = none := by rw [hget] at h1; exact h1
    subst hr
    rfl
  have hTTL : (ttl.getD (((c.get now k).2).defaultTTL)) = ttl.getD c.defaultTTL := by
    rw [get_snd_defaultTTL]
  have hlook : lookupEntry (((c.get now k).2).set now k (some v) ttl).entries k
      = some ⟨some v, now + (ttl.getD c.defaultTTL) * 1000, k⟩ := by
    rw [lookupEntry_set_self, get_snd_defaultTTL]
  have hlive : ¬ (⟨some v, now + (ttl.getD c.defaultTTL) * 1000, k⟩ :
      CacheEntry V).expiresAt < now2 := by
    simp only []
    omega
  have hsecond : (((c.get now k).2).set now k (some v) ttl).getOrFetch now2 k f2 ttl
      = (Except.ok (some v),
          { ((c.get now k).2).set now k (some v) ttl with
              hits := (((c.get now k).2).set now k (some v) ttl).hits + 1 }, false) := by
    unfold Cache.getOrFetch
    rw [get_hit (((c.get now k).2).set now k (some v) ttl) now2 k
      ⟨some v, now + (ttl.getD c.defaultTTL) * 1000, k⟩ hlook hlive]
  rw [hfirst]
  refine ⟨rfl, rfl, ?_, ?_, ?_⟩
  · simp only [hsecond]
  · simp only [hsecond]
  · simp only [hsecond]

/-- Witness for the amended claim C4 at a concrete key and non-null
value: the first call invokes the supplier, the second call five
milliseconds later does not and returns the cached value. -/
theorem c4_witness :
    (c4W.getOrFetch 0 ("kk") (Except.ok (some 42) : Except Nat (Option Nat))
      (some 60)).2.2 = true ∧
    ((c4W.getOrFetch 0 ("kk") (Except.ok (some 42) : Except Nat (Option Nat))
      (some 60)).2.1.getOrFetch 5 ("kk")
      (Except.error 7 : Except Nat (Option Nat)) (some 60)).2.2 = false ∧
    ((c4W.getOrFetch 0 ("kk") (Except.ok (some 42) : Except Nat (Option Nat))
      (some 60)).2.1.getOrFetch 5 ("kk")
      (Except.error 7 : Except Nat (Option Nat)) (some 60)).1 = Except.ok (some 42) :=
  let H := c4_single_fetch_before_expiry c4W 0 5 ("kk") 42 (some 60)
    (Except.error 7 : Except Nat (Option Nat)) (by decide) (by decide)
  ⟨H.1, H.2.2.1, H.2.2.2.1⟩

/-- Claim C5: a get on an entry whose expiry has passed returns null,
counts a miss and not a hit, and removes the entry from the store as a
side effect of the read; moreover, over the whole model, whenever get
returns a value the backing entry is live, so no value is ever served
past its expiration. -/
theorem c5_expired_get_is_miss {V : Type} (c : Cache V) (now : Nat) (k : String)
    (ent : CacheEntry V) (hl : lookupEntry c.entries k = some ent)
    (hexp : ent.expiresAt < now) (hnd : (c.entries.map Prod.fst).Nodup) :
    (c.get now k).1 = none ∧
    (c.get now k).2.misses = c.misses + 1 ∧
    (c.get now k).2.hits = c.hits ∧
    lookupEntry (c.get now k).2.entries k = none ∧
    (∀ (c2 : Cache V) (n2 : Nat) (k2 : String) (v2 : V), (c2.get n2 k2).1 = some v2 →
      ∃ e2, lookupEntry c2.entries k2 = some e2 ∧ e2.value = some v2 ∧
        n2 ≤ e2.expiresAt) := by
  rw [get_expired c now k ent hl hexp]
  refine ⟨rfl, rfl, rfl, ?_, ?_⟩
  · exact lookupEntry_eraseKey_self c.entries k hnd
  · intro c2 n2 k2 v2 hv
    cases hl2 : lookupEntry c2.entries k2 with
    | none =>
      rw [get_missing c2 n2 k2 hl2] at hv
      cases hv
    | some e2 =>
      by_cases he2 : e2.expiresAt < n2
      · rw [get_expired c2 n2 k2 e2 hl2 he2] at hv
        cases hv
      · rw [get_hit c2 n2 k2 e2 hl2 he2] at hv
        exact ⟨e2, rfl, hv, by omega⟩

/-- Witness for claim C5: reading the expired key at time 2000 misses,
bumps the miss counter and deletes the entry. -/
theorem c5_witness :
    (c5Cache.get 2000 ("x")).1 = none ∧
    (c5Cache.get 2000 ("x")).2.misses = c5Cache.misses + 1 ∧
    (c5Cache.get 2000 ("x")).2.hits = c5Cache.hits ∧
    lookupEntry (c5Cache.get 2000 ("x")).2.entries ("x") = none :=
  let H := c5_expired_get_is_miss c5Cache 2000 ("x") ⟨some 3, 1000, "x"⟩
    (by decide) (by decide) (by decide)
  ⟨H.1, H.2.1, H.2.2.1, H.2.2.2.1⟩

/-- Claim C8, counterexample: the claim says that after a failing
supplier the cache contains no entry for the key. Here the key holds a
live entry storing null, which the read path reports as a miss; the
supplier is invoked and fails, the failure is propagated, and the entry
is still present afterwards. -/
theorem c8_null_entry_survives_failed_fetch :
    c8Run.2.2 = true ∧
    c8Run.1 = Except.error 7 ∧
    lookupEntry c8Run.2.1.entries ("k") = some ⟨none, 100000, "k"⟩ := by
  decide

/-- Claim C8, amended: when getOrFetch invokes a supplier that fails, the
failure is propagated verbatim and nothing is stored: the resulting cache
is exactly the cache left by the initial read, so every other key is
untouched and the store never grows; under the key itself either no
entry remains (it was absent, or expired and the read deleted it) or a
live entry storing null was already there and remains unchanged. -/
theorem c8_failed_fetch_preserves_cache {V E : Type} (c : Cache V) (now : Nat)
    (k : String) (err : E) (ttl : Option Nat)
    (hmiss : (c.get now k).1 = none) (hnd : (c.entries.map Prod.fst).Nodup) :
    (c.getOrFetch now k (Except.error err) ttl).1 = Except.error err ∧
    (c.getOrFetch now k (Except.error err) ttl).2.2 = true ∧
    (c.getOrFetch now k (Except.error err) ttl).2.1 = (c.get now k).2 ∧
    (∀ k2, k2 ≠ k →
      lookupEntry (c.getOrFetch now k (Except.error err) ttl).2.1.entries k2
        = lookupEntry c.entries k2) ∧
    (c.getOrFetch now k (Except.error err) ttl).2.1.entries.length
      ≤ c.entries.length ∧
    (lookupEntry (c.getOrFetch now k (Except.error err) ttl).2.1.entries k = none ∨
      (∃ ent, lookupEntry c.entries k = some ent ∧ ent.value = none ∧
        ¬ ent.expiresAt < now ∧
        lookupEntry (c.getOrFetch now k (Except.error err) ttl).2.1.entries k
          = some ent)) := by
  have hrun : c.getOrFetch now k (Except.error err) ttl
      = (Except.error err, (c.get now k).2, true) := by
    unfold Cache.getOrFetch
    rcases hget : c.get now k with ⟨r, c1⟩
    have hr : r = none := by rw [hget] at hmiss; exact hmiss
    subst hr
    rfl
  rw [hrun]
  cases hl : lookupEntry c.entries k with
  | none =>
    rw [get_missing c now k hl]
    exact ⟨rfl, rfl, rfl, fun k2 _ => rfl, Nat.le_refl _, Or.inl hl⟩
  | some ent =>
    by_cases hex : ent.expiresAt < now
    · rw [get_expired c now k ent hl hex]
      refine ⟨rfl, rfl, rfl, ?_, ?_, Or.inl ?_⟩
      · intro k2 h2
        exact lookupEntry_eraseKey_ne c.entries k k2 h2
      · exact length_eraseKey_le c.entries k
      · exact lookupEntry_eraseKey_self c.entries k hnd
    · have hvnone : ent.value = none := by
        rw [get_hit c now k ent hl hex] at hmiss
        exact hmiss
      rw [get_hit c now k ent hl hex]
      exact ⟨rfl, rfl, rfl, fun k2 _ => rfl, Nat.le_refl _,
        Or.inr ⟨ent, rfl, hvnone, hex, hl⟩⟩

/-- Witness for the amended claim C8 on an empty cache: the failure is
propagated, the supplier was invoked, and the key holds no entry
afterwards. -/
theorem c8_witness :
    (c8W.getOrFetch 0 ("z") (Except.error 3) none).1 = Except.error 3 ∧
    (c8W.getOrFetch 0 ("z") (Except.error 3) none).2.2 = true ∧
    (c8W.getOrFetch 0 ("z") (Except.error 3) none).2.1.entries.length
      ≤ c8W.entries.length :=
  let H := c8_failed_fetch_preserves_cache c8W 0 ("z") 3 none (by decide) (by decide)
  ⟨H.1, H.2.1, H.2.2.2.2.1⟩

/-- Claim C10: touch performs no expiry check, so on an entry that is
still physically present but already expired it returns true, rewrites
the expiry to now plus the ttl, keeps the stored value, and a subsequent
get at the same instant is a hit serving the stale value. -/
theorem c10_touch_revives_expired {V : Type} (c : Cache V) (now : Nat) (k : String)
    (ent : CacheEntry V) (ttl : Option Nat)
    (hl : lookupEntry c.entries k = some ent) (hexp : ent.expiresAt < now) :
    (c.touch now k ttl).1 = true ∧
    lookupEntry (c.touch now k ttl).2.entries k
      = some (⟨ent.value, now + (ttl.getD c.defaultTTL) * 1000, ent.key⟩ : CacheEntry V) ∧
    ((c.touch now k ttl).2.get now k).1 = ent.value ∧
    ((c.touch now k ttl).2.get now k).2.hits = (c.touch now k ttl).2.hits + 1 := by
  have htouch : c.touch now k ttl = (true,
      { c with entries := (setEntry c.entries k
          (⟨ent.value, now + (ttl.getD c.defaultTTL) * 1000, ent.key⟩ : CacheEntry V)) }) := by
    unfold Cache.touch
    rw [hl]
  have hlook : lookupEntry (setEntry c.entries k
      (⟨ent.value, now + (ttl.getD c.defaultTTL) * 1000, ent.key⟩ : CacheEntry V)) k
      = some (⟨ent.value, now + (ttl.getD c.defaultTTL) * 1000, ent.key⟩ : CacheEntry V) :=
    lookupEntry_setEntry_self c.entries k _
  have hlive : ¬ ((⟨ent.value, now + (ttl.getD c.defaultTTL) * 1000, ent.key⟩ :
      CacheEntry V)).expiresAt < now := by
    simp only []
    omega
  rw [htouch]
  have hget := get_hit
    ({ c with entries := (setEntry c.entries k
        (⟨ent.value, now + (ttl.getD c.defaultTTL) * 1000, ent.key⟩ : CacheEntry V)) })
    now k (⟨ent.value, now + (ttl.getD c.defaultTTL) * 1000, ent.key⟩ : CacheEntry V)
    hlook hlive
  refine ⟨rfl, hlook, ?_, ?_⟩
  · rw [hget]
  · rw [hget]

/-- Witness for claim C10: at time 5000 the entry keyed y is expired, yet
touch succeeds, rewrites its expiry to 15000, and the following get
serves the stale value 9. -/
theorem c10_witness :
    (c10W.touch 5000 ("y") (some 10)).1 = true ∧
    lookupEntry (c10W.touch 5000 ("y") (some 10)).2.entries ("y")
      = some ⟨some 9, 15000, "y"⟩ ∧
    ((c10W.touch 5000 ("y") (some 10)).2.get 5000 ("y")).1 = some 9 :=
  let H := c10_touch_revives_expired c10W 5000 ("y") ⟨some 9, 2000, "y"⟩ (some 10)
    (by decide) (by decide)
  ⟨H.1, H.2.1, H.2.2.1⟩

end HALsp
